import Mathlib

/-!
Verification development for `src/extract.py` of the BCB_SFN_IBBA repository:
a resilient batch downloader for central-bank (SGS) time series.

Shallow embedding conventions:

* A calendar date `YYYY-MM-DD` is encoded as the natural number
  `YYYY * 10000 + MM * 100 + DD`; comparison of these codes agrees with the
  lexicographic comparison of ISO date strings used by the Python code
  (e.g. `ts.index >= start_date`).
* A series value is a nullable numeric, `Option Int`.
* A fetched series is its list of `(TimePoint, value)` observations; a
  data frame is a list of `(column name, observations)` pairs, columns in
  order (`pd.concat(results, axis=1)` is column concatenation).
* The remote SGS endpoint (`sgs.get`) is an oracle, a `Remote` structure
  whose fields model the three call shapes found in the source; fallible
  remote calls return `Except Unit`.
* Excel column letters are identified with their 1-based indices
  (`column_index_from_string` / `get_column_letter`): `A = 1`, `B = 2`, ….
-/

abbrev Date := Nat

abbrev Val := Option Int

/-- Observations of one series: `(TimePoint, value)` pairs. -/
abbrev Obs := List (Date × Val)

/-- `START_DATE = '2010-01-01'` from the source. -/
def START_DATE : Date := 20100101

/-- `BATCH_SIZE = 10` from the source. -/
def BATCH_SIZE : Nat := 10

/-- `MAX_WORKERS = 5` from the source.  The worker pool only bounds how many
batch tasks run at once; the collected result set is order-independent, so the
pool size does not enter the functional model. -/
def MAX_WORKERS : Nat := 5

/-- The remote data source `bcb.sgs.get`, as an oracle.  The three fields model
the three call shapes in the source: `sgs.get(chunk, start=...)`,
`sgs.get(code, start=...)` and `sgs.get(code)`.  A raised exception is the
`.error ()` result. -/
structure Remote where
  fetchBatch : List Nat → Date → Except Unit (List (Nat × Obs))
  fetchOne : Nat → Date → Except Unit Obs
  fetchFull : Nat → Except Unit Obs

/-- Tri-state per-series outcome (spec §3 `FetchOutcome`). -/
inductive FetchOutcome where
  | succeeded (obs : Obs)
  | noDataInPeriod
  | permanentlyFailed
  deriving DecidableEq, Repr

/-- The per-identifier tiered fallback resolver: the body of the
`for code in chunk` loop of `process_batch_chunk` (src/extract.py:57-76).
Attempt 1 is the strict windowed fetch; attempt 2 downloads the full history
and keeps only observations with index `>= start_date`; if both remote calls
raise, the series fails permanently.  A full-history result that is empty, or
becomes empty after the filter, contributes nothing but is not a failure
(the source only appends in the two success branches). -/
def resolveOne (r : Remote) (code : Nat) (start : Date) : FetchOutcome :=
  match r.fetchOne code start with
  | .ok ts => .succeeded ts
  | .error _ =>
    match r.fetchFull code with
    | .ok ts =>
      if ts.isEmpty then .noDataInPeriod
      else
        let filtered := ts.filter fun ob => decide (start ≤ ob.1)
        if filtered.isEmpty then .noDataInPeriod
        else .succeeded filtered
    | .error _ => .permanentlyFailed

/-- What an outcome appends to `chunk_results` for its code: a named series
on success (the source sets `ts.name = code`), nothing otherwise. -/
def contribOf (code : Nat) : FetchOutcome → List (Nat × Obs)
  | .succeeded obs => [(code, obs)]
  | .noDataInPeriod => []
  | .permanentlyFailed => []

/-- The individual resolutions attempted for a chunk in recovery mode: one
resolver run per code, in chunk order. -/
def fallbackOutcomes (r : Remote) (chunk : List Nat) (start : Date) :
    List (Nat × FetchOutcome) :=
  chunk.map fun code => (code, resolveOne r code start)

/-- `process_batch_chunk` (src/extract.py:42-77): one combined fetch for the
whole chunk; on any failure, recover by resolving every code individually and
appending whatever succeeds. -/
def process_batch_chunk (r : Remote) (chunk : List Nat) (start : Date) :
    List (Nat × Obs) :=
  match r.fetchBatch chunk start with
  | .ok df_chunk => df_chunk
  | .error _ =>
    (fallbackOutcomes r chunk start).flatMap fun p => contribOf p.1 p.2

/-- `sorted(list(set(series_codes)))` (src/extract.py:93). -/
def sortedDedup (l : List Nat) : List Nat :=
  l.dedup.insertionSort (· ≤ ·)

/-- Python `range(0, stop, step)` for positive `step`. -/
def pyRange (stop step : Nat) : List Nat :=
  List.range' 0 ((stop + step - 1) / step) step

/-- The chunking expression of `download_series_batch` (src/extract.py:99):
`[series_codes[i : i + BATCH_SIZE] for i in range(0, total, BATCH_SIZE)]`,
with `l[i : i + B]` the Python slice `(l.drop i).take B`. -/
def chunksOf (l : List Nat) : List (List Nat) :=
  (pyRange l.length BATCH_SIZE).map fun i => (l.drop i).take BATCH_SIZE

/-- `download_series_batch` (src/extract.py:79-122): deduplicate and sort the
codes, chunk them, process every chunk, and concatenate all partial results
column-wise.  Thread completion order only permutes which chunk finishes
first; the model collects chunk results in submission order (the column *set*
is completion-order independent).  The final
`pd.to_numeric(df.columns, ...).astype(int)` step is the identity here because
column names are already the integer codes. -/
def download_series_batch (r : Remote) (series_codes : List Nat) (start : Date) :
    List (Nat × Obs) :=
  (chunksOf (sortedDedup series_codes)).flatMap fun chunk =>
    process_batch_chunk r chunk start

/-! ### Structural lemmas about the partitioner -/

theorem chunksOf_nil : chunksOf [] = [] := rfl

theorem map_take_drop_shift (l : List Nat) (n s : Nat) :
    (List.range' (BATCH_SIZE + s) n BATCH_SIZE).map
        (fun i => (l.drop i).take BATCH_SIZE)
      = (List.range' s n BATCH_SIZE).map
        (fun i => ((l.drop BATCH_SIZE).drop i).take BATCH_SIZE) := by
  induction n generalizing s with
  | zero => rfl
  | succ n ih =>
    rw [List.range'_succ, List.range'_succ, List.map_cons, List.map_cons]
    congr 1
    · rw [List.drop_drop]
    · rw [← ih (s + BATCH_SIZE), Nat.add_assoc]

theorem chunksOf_cons (l : List Nat) (h : l ≠ []) :
    chunksOf l = l.take BATCH_SIZE :: chunksOf (l.drop BATCH_SIZE) := by
  have hL : 0 < l.length := List.length_pos.mpr h
  have h1 : (l.length + BATCH_SIZE - 1) / BATCH_SIZE
      = ((l.drop BATCH_SIZE).length + BATCH_SIZE - 1) / BATCH_SIZE + 1 := by
    rw [List.length_drop]; unfold BATCH_SIZE; omega
  unfold chunksOf pyRange
  rw [h1, List.range'_succ, List.map_cons, List.drop_zero]
  congr 1
  simpa using map_take_drop_shift l
    (((l.drop BATCH_SIZE).length + BATCH_SIZE - 1) / BATCH_SIZE) 0

theorem chunksOf_flatten (l : List Nat) : (chunksOf l).flatten = l := by
  by_cases h : l = []
  · subst h; rfl
  · rw [chunksOf_cons l h, List.flatten_cons, chunksOf_flatten (l.drop BATCH_SIZE),
      List.take_append_drop]
termination_by l.length
decreasing_by
  have hL : 0 < l.length := List.length_pos.mpr h
  rw [List.length_drop]; unfold BATCH_SIZE; omega

theorem chunksOf_mem_ne_nil (l : List Nat) : ∀ c ∈ chunksOf l, c ≠ [] := by
  intro c hc
  obtain ⟨i, hi, rfl⟩ := List.mem_map.mp hc
  obtain ⟨j, hj, rfl⟩ := List.mem_range'.mp hi
  rw [← List.length_pos, List.length_take, List.length_drop]
  have hB : BATCH_SIZE = 10 := rfl
  rw [hB] at hj ⊢
  simp only [lt_inf_iff]
  omega

theorem chunksOf_mem_length_le (l : List Nat) :
    ∀ c ∈ chunksOf l, c.length ≤ BATCH_SIZE := by
  intro c hc
  obtain ⟨i, _, rfl⟩ := List.mem_map.mp hc
  rw [List.length_take]
  exact inf_le_left

theorem chunksOf_ne_nil (l : List Nat) (h : l ≠ []) : chunksOf l ≠ [] := by
  rw [chunksOf_cons l h]; exact List.cons_ne_nil _ _

theorem chunksOf_dropLast_length (l : List Nat) :
    ∀ c ∈ (chunksOf l).dropLast, c.length = BATCH_SIZE := by
  intro c hc
  by_cases h : l = []
  · subst h
    rw [chunksOf_nil] at hc
    exact absurd hc (List.not_mem_nil c)
  · rw [chunksOf_cons l h] at hc
    by_cases h2 : l.drop BATCH_SIZE = []
    · rw [h2, chunksOf_nil] at hc
      rw [show ([l.take BATCH_SIZE] : List (List Nat)).dropLast = [] from rfl] at hc
      exact absurd hc (List.not_mem_nil c)
    · rw [List.dropLast_cons_of_ne_nil (chunksOf_ne_nil _ h2)] at hc
      rcases List.mem_cons.mp hc with hc | hc
      · subst hc
        have hlen : BATCH_SIZE < l.length := by
          have := List.length_pos.mpr h2
          rw [List.length_drop] at this
          omega
        rw [List.length_take]
        omega
      · exact chunksOf_dropLast_length (l.drop BATCH_SIZE) c hc
termination_by l.length
decreasing_by
  have hL : 0 < l.length := List.length_pos.mpr h
  rw [List.length_drop]; unfold BATCH_SIZE; omega

theorem sortedDedup_sorted (l : List Nat) : List.Sorted (· ≤ ·) (sortedDedup l) :=
  List.sorted_insertionSort _ _

theorem sortedDedup_nodup (l : List Nat) : (sortedDedup l).Nodup :=
  (List.perm_insertionSort _ _).nodup_iff.mpr (List.nodup_dedup l)

theorem mem_sortedDedup (l : List Nat) (x : Nat) : x ∈ sortedDedup l ↔ x ∈ l := by
  unfold sortedDedup
  rw [(List.perm_insertionSort _ _).mem_iff, List.mem_dedup]

/-! ### Lemmas about the tiered fallback resolver -/

/-- Running the resolver twice on the same inputs, for the idempotence claim. -/
def resolveTwice (r : Remote) (code : Nat) (start : Date) :
    FetchOutcome × FetchOutcome :=
  (resolveOne r code start, resolveOne r code start)

theorem resolveOne_filter_collapse (r : Remote) (code : Nat) (start : Date) :
    resolveOne r code start =
      match r.fetchOne code start with
      | .ok ts => .succeeded ts
      | .error _ =>
        match r.fetchFull code with
        | .ok ts =>
          if ts.filter (fun ob => decide (start ≤ ob.1)) = [] then .noDataInPeriod
          else .succeeded (ts.filter fun ob => decide (start ≤ ob.1))
        | .error _ => .permanentlyFailed := by
  unfold resolveOne
  cases r.fetchOne code start with
  | ok ts => rfl
  | error e =>
    cases r.fetchFull code with
    | error e' => rfl
    | ok ts =>
      cases hts : ts.isEmpty with
      | true =>
        rw [List.isEmpty_iff.mp hts]
        rfl
      | false =>
        simp only [hts, Bool.false_eq_true, if_false]
        by_cases hf : ts.filter (fun ob => decide (start ≤ ob.1)) = []
        · rw [if_pos (List.isEmpty_iff.mpr hf), if_pos hf]
        · rw [if_neg (fun hh => hf (List.isEmpty_iff.mp hh)), if_neg hf]

/-! ### Concrete oracles used by the witnesses -/

/-- An oracle on which every remote call raises. -/
def rAllFail : Remote where
  fetchBatch := fun _ _ => .error ()
  fetchOne := fun _ _ => .error ()
  fetchFull := fun _ => .error ()

/-- An oracle whose combined fetch always raises and whose strict fetch
succeeds exactly for even codes. -/
def rBatchFails : Remote where
  fetchBatch := fun _ _ => .error ()
  fetchOne := fun code _ =>
    if code % 2 = 0 then .ok [(20100101, some 1)] else .error ()
  fetchFull := fun _ => .error ()

example : download_series_batch rAllFail [3, 1, 2, 1] START_DATE = [] := by decide

example : chunksOf [1, 2, 3] = [[1, 2, 3]] := by decide

example : sortedDedup [3, 1, 2, 1] = [1, 2, 3] := by decide

/-! ### Claims C1, C2, C9, C10, C3 -/

theorem flatMap_contrib_eq_filterMap (r : Remote) (start : Date)
    (chunk : List Nat) :
    ((chunk.map fun code => (code, resolveOne r code start)).flatMap
        fun p => contribOf p.1 p.2)
      = chunk.filterMap fun code =>
          match resolveOne r code start with
          | .succeeded obs => some (code, obs)
          | _ => none := by
  induction chunk with
  | nil => rfl
  | cons a t ih =>
    cases ho : resolveOne r a start with
    | succeeded obs =>
      simp only [List.map_cons, List.flatMap_cons, List.filterMap_cons, ho]
      exact congrArg (List.cons (a, obs)) ih
    | noDataInPeriod =>
      simp only [List.map_cons, List.flatMap_cons, List.filterMap_cons, ho]
      exact ih
    | permanentlyFailed =>
      simp only [List.map_cons, List.flatMap_cons, List.filterMap_cons, ho]
      exact ih

/-- C1: if the combined fetch for a batch of N identifiers raises, the batch
task attempts exactly N individual resolutions (one per identifier, no fewer),
and the batch's contribution to the result set is exactly the per-identifier
resolutions that succeed. -/
theorem C1_batch_failure_falls_back_per_series (r : Remote) (chunk : List Nat)
    (start : Date) (h : r.fetchBatch chunk start = .error ()) :
    (fallbackOutcomes r chunk start).length = chunk.length
    ∧ process_batch_chunk r chunk start
        = chunk.filterMap fun code =>
            match resolveOne r code start with
            | .succeeded obs => some (code, obs)
            | _ => none := by
  constructor
  · exact List.length_map _ _
  · unfold process_batch_chunk fallbackOutcomes
    rw [h]
    exact flatMap_contrib_eq_filterMap r start chunk

theorem C1_witness :
    (fallbackOutcomes rBatchFails [1, 2] START_DATE).length
        = ([1, 2] : List Nat).length
    ∧ process_batch_chunk rBatchFails [1, 2] START_DATE
        = ([1, 2] : List Nat).filterMap fun code =>
            match resolveOne rBatchFails code START_DATE with
            | .succeeded obs => some (code, obs)
            | _ => none :=
  C1_batch_failure_falls_back_per_series rBatchFails [1, 2] START_DATE rfl

/-- C2: the per-series resolver is total (it is a Lean function into
`FetchOutcome`, so no fault escapes its boundary) and yields one of three
outcomes: a successful strict windowed fetch is `succeeded` with those
observations; otherwise the full history is fetched and observations strictly
before the start date are discarded — a non-empty filtered result is
`succeeded`, an empty one is `noDataInPeriod` (not a failure), and when both
fetches raise the outcome is `permanentlyFailed` with no contribution. -/
theorem C2_resolver_total_three_outcomes (r : Remote) (code : Nat) (start : Date) :
    (∀ ts, r.fetchOne code start = .ok ts →
      resolveOne r code start = .succeeded ts)
    ∧ (∀ ts, r.fetchOne code start = .error () → r.fetchFull code = .ok ts →
        (∀ ob ∈ ts.filter fun ob => decide (start ≤ ob.1), start ≤ ob.1)
        ∧ ((ts.filter fun ob => decide (start ≤ ob.1)) ≠ [] →
            resolveOne r code start
              = .succeeded (ts.filter fun ob => decide (start ≤ ob.1)))
        ∧ ((ts.filter fun ob => decide (start ≤ ob.1)) = [] →
            resolveOne r code start = .noDataInPeriod))
    ∧ (r.fetchOne code start = .error () → r.fetchFull code = .error () →
        resolveOne r code start = .permanentlyFailed
        ∧ contribOf code (resolveOne r code start) = []) := by
  refine ⟨?_, ?_, ?_⟩
  · intro ts h
    rw [resolveOne_filter_collapse, h]
  · intro ts h1 h2
    refine ⟨fun ob hob => of_decide_eq_true (List.mem_filter.mp hob).2, ?_, ?_⟩
    · intro hne
      rw [resolveOne_filter_collapse, h1, h2]
      exact if_neg hne
    · intro hnil
      rw [resolveOne_filter_collapse, h1, h2]
      exact if_pos hnil
  · intro h1 h2
    have hout : resolveOne r code start = .permanentlyFailed := by
      rw [resolveOne_filter_collapse, h1, h2]
    exact ⟨hout, by rw [hout]; rfl⟩

theorem C2_witness :
    resolveOne rBatchFails 2 START_DATE = .succeeded [(20100101, some 1)] :=
  (C2_resolver_total_three_outcomes rBatchFails 2 START_DATE).1
    [(20100101, some 1)] rfl

/-- C9: on an identifier whose strict and full-history fetches both raise,
running the resolver twice yields the same terminal outcome both times —
`permanentlyFailed`, contributing no observations — and, being a total
function, it cannot crash or let an exception escape. -/
theorem C9_permanent_failure_idempotent (r : Remote) (code : Nat) (start : Date)
    (h1 : r.fetchOne code start = .error ()) (h2 : r.fetchFull code = .error ()) :
    resolveTwice r code start = (.permanentlyFailed, .permanentlyFailed)
    ∧ contribOf code (resolveOne r code start) = [] := by
  have hout : resolveOne r code start = .permanentlyFailed := by
    rw [resolveOne_filter_collapse, h1, h2]
  refine ⟨?_, by rw [hout]; rfl⟩
  unfold resolveTwice
  rw [hout]

theorem C9_witness :
    resolveTwice rAllFail 9 START_DATE = (.permanentlyFailed, .permanentlyFailed)
    ∧ contribOf 9 (resolveOne rAllFail 9 START_DATE) = [] :=
  C9_permanent_failure_idempotent rAllFail 9 START_DATE rfl rfl

/-- C10: every chunk produced by the dispatcher's batching expression is
non-empty, so `process_batch_chunk` is never invoked with an empty chunk and
the `chunk[0]` accesses in its log messages are in bounds. -/
theorem C10_chunks_nonempty (series_codes : List Nat) :
    ∀ chunk ∈ chunksOf (sortedDedup series_codes),
      chunk ≠ [] ∧ ∃ x, chunk.head? = some x := by
  intro chunk hc
  have hne := chunksOf_mem_ne_nil _ chunk hc
  refine ⟨hne, ?_⟩
  cases chunk with
  | nil => exact absurd rfl hne
  | cons a t => exact ⟨a, rfl⟩

theorem C10_witness :
    ([1, 2] : List Nat) ≠ [] ∧ ∃ x, ([1, 2] : List Nat).head? = some x :=
  C10_chunks_nonempty [1, 2] [1, 2] (by decide)

/-- C3: the partitioner's batches, concatenated in order, equal the sorted
deduplicated input (which is sorted, duplicate-free, and has exactly the
input's elements); every batch has at most `BATCH_SIZE` elements, every batch
except possibly the last has exactly `BATCH_SIZE` elements, and an empty
input yields an empty batch list. -/
theorem C3_partitioner_exact (series_codes : List Nat) :
    (chunksOf (sortedDedup series_codes)).flatten = sortedDedup series_codes
    ∧ List.Sorted (· ≤ ·) (sortedDedup series_codes)
    ∧ (sortedDedup series_codes).Nodup
    ∧ (∀ x, x ∈ sortedDedup series_codes ↔ x ∈ series_codes)
    ∧ (∀ c ∈ chunksOf (sortedDedup series_codes), c.length ≤ BATCH_SIZE)
    ∧ (∀ c ∈ (chunksOf (sortedDedup series_codes)).dropLast,
        c.length = BATCH_SIZE)
    ∧ (series_codes = [] → chunksOf (sortedDedup series_codes) = []) := by
  refine ⟨chunksOf_flatten _, sortedDedup_sorted _, sortedDedup_nodup _,
    mem_sortedDedup _, chunksOf_mem_length_le _, chunksOf_dropLast_length _, ?_⟩
  intro h
  subst h
  rfl

theorem C3_witness :
    (chunksOf (sortedDedup [3, 1, 2, 1])).flatten = sortedDedup [3, 1, 2, 1] :=
  (C3_partitioner_exact [3, 1, 2, 1]).1

/-! ### Claim C6: no duplicate columns in the consolidated result -/

theorem fallback_cols_sublist (r : Remote) (start : Date) (chunk : List Nat) :
    (((fallbackOutcomes r chunk start).flatMap fun p => contribOf p.1 p.2).map
        Prod.fst).Sublist chunk := by
  unfold fallbackOutcomes
  induction chunk with
  | nil => simp
  | cons a t ih =>
    simp only [List.map_cons, List.flatMap_cons, List.map_append]
    cases ho : resolveOne r a start with
    | succeeded obs => exact ih.cons₂ a
    | noDataInPeriod => exact ih.cons a
    | permanentlyFailed => exact ih.cons a

theorem process_cols_subset (r : Remote) (start : Date) (chunk : List Nat)
    (hcontract : ∀ frame, r.fetchBatch chunk start = .ok frame →
      ∀ n ∈ frame.map Prod.fst, n ∈ chunk) :
    ∀ n ∈ (process_batch_chunk r chunk start).map Prod.fst, n ∈ chunk := by
  intro n hn
  unfold process_batch_chunk at hn
  cases hb : r.fetchBatch chunk start with
  | ok frame =>
    rw [hb] at hn
    exact hcontract frame hb n hn
  | error e =>
    rw [hb] at hn
    exact (fallback_cols_sublist r start chunk).subset hn

theorem process_cols_nodup (r : Remote) (start : Date) (chunk : List Nat)
    (hchunk : chunk.Nodup)
    (hcontract : ∀ frame, r.fetchBatch chunk start = .ok frame →
      (frame.map Prod.fst).Nodup) :
    ((process_batch_chunk r chunk start).map Prod.fst).Nodup := by
  unfold process_batch_chunk
  cases hb : r.fetchBatch chunk start with
  | ok frame => exact hcontract frame hb
  | error e => exact (fallback_cols_sublist r start chunk).nodup hchunk

/-- C6: when the remote keeps its interface contract (a successful combined
fetch returns a frame keyed, without duplicates, by identifiers of the
requested batch), the consolidated result of `download_series_batch` has no
two columns with the same identifier: deduplication before batching makes the
batches pairwise disjoint, and within one batch each identifier is appended
at most once — by the combined fetch or by its own fallback resolution, never
both. -/
theorem C6_columns_unique (r : Remote) (series_codes : List Nat) (start : Date)
    (hcontract : ∀ chunk frame, r.fetchBatch chunk start = .ok frame →
      (frame.map Prod.fst).Nodup ∧ ∀ n ∈ frame.map Prod.fst, n ∈ chunk) :
    ((download_series_batch r series_codes start).map Prod.fst).Nodup := by
  unfold download_series_batch
  rw [List.map_flatMap, List.nodup_flatMap]
  have hflat : (chunksOf (sortedDedup series_codes)).flatten.Nodup := by
    rw [chunksOf_flatten]
    exact sortedDedup_nodup series_codes
  obtain ⟨hparts, hdisj⟩ := List.nodup_flatten.mp hflat
  constructor
  · intro chunk hchunk
    exact process_cols_nodup r start chunk (hparts chunk hchunk)
      fun frame hf => (hcontract chunk frame hf).1
  · refine hdisj.imp ?_
    intro c1 c2 h12 n hn1 hn2
    exact h12
      (process_cols_subset r start c1 (fun fr hf => (hcontract c1 fr hf).2) n hn1)
      (process_cols_subset r start c2 (fun fr hf => (hcontract c2 fr hf).2) n hn2)

theorem C6_witness :
    ((download_series_batch rBatchFails [2, 1, 2, 11, 4] START_DATE).map
        Prod.fst).Nodup :=
  C6_columns_unique rBatchFails [2, 1, 2, 11, 4] START_DATE
    fun _ _ h => absurd h (fun hh => Except.noConfusion hh)

/-! ### Claim C7: the canonical time axis
(`pd.date_range(start=START_DATE, end=today, freq='MS')`, src/extract.py:149) -/

/-- Date code of the first day of absolute month number `k`
(`k = 12 * year + (month - 1)`). -/
def monthStart (k : Nat) : Nat :=
  (k / 12) * 10000 + (k % 12 + 1) * 100 + 1

/-- Absolute month number of a date code. -/
def monthIdx (d : Nat) : Nat :=
  (d / 10000) * 12 + (d / 100 % 100 - 1)

/-- `d` is the first day of some month. -/
def isMonthStart (d : Nat) : Prop :=
  d % 100 = 1 ∧ 1 ≤ d / 100 % 100 ∧ d / 100 % 100 ≤ 12

/-- A well-formed date code: month in `1..12`, day in `1..31`. -/
def validDate (d : Nat) : Prop :=
  1 ≤ d / 100 % 100 ∧ d / 100 % 100 ≤ 12 ∧ 1 ≤ d % 100 ∧ d % 100 ≤ 31

/-- Model of `pd.date_range(start=s, end=e, freq='MS')`: the ordered sequence
of month-start timestamps lying in the closed interval `[s, e]` (that is the
documented pandas semantics of an `'MS'`-anchored range with both bounds
inclusive; a start inside a month rolls forward to the next month start). -/
def date_range_MS (s e : Nat) : List Nat :=
  ((List.range (monthIdx e + 1)).map monthStart).filter
    fun d => decide (s ≤ d) && decide (d ≤ e)

theorem monthStart_strictMono {k k' : Nat} (h : k < k') :
    monthStart k < monthStart k' := by
  unfold monthStart; omega

theorem monthStart_isMonthStart (k : Nat) : isMonthStart (monthStart k) := by
  unfold monthStart isMonthStart
  refine ⟨?_, ?_, ?_⟩ <;> omega

theorem monthStart_monthIdx {d : Date} (h : isMonthStart d) :
    monthStart (monthIdx d) = d := by
  unfold isMonthStart at h
  unfold monthStart monthIdx
  omega

theorem date_range_MS_pairwise (s e : Date) :
    List.Pairwise (· < ·) (date_range_MS s e) :=
  (((List.pairwise_lt_range _).map monthStart
    fun _ _ hab => monthStart_strictMono hab).filter _)

/-- C7: for every pair of start and end dates, the axis builder returns an
ordered, duplicate-free sequence of month-start time points; every point lies
in the closed interval `[s, e]` and (for a well-formed end date) every
month start in that interval occurs, even when the start date is not aligned
to a period boundary; a start after the end yields an empty axis, not an
error. -/
theorem C7_axis_properties (s e : Nat) :
    List.Sorted (· < ·) (date_range_MS s e)
    ∧ (date_range_MS s e).Nodup
    ∧ (∀ d ∈ date_range_MS s e, isMonthStart d ∧ s ≤ d ∧ d ≤ e)
    ∧ (validDate e →
        ∀ d, isMonthStart d → s ≤ d → d ≤ e → d ∈ date_range_MS s e)
    ∧ (e < s → date_range_MS s e = []) := by
  refine ⟨date_range_MS_pairwise s e,
    (date_range_MS_pairwise s e).imp Nat.ne_of_lt, ?_, ?_, ?_⟩
  · intro d hd
    obtain ⟨hdm, hcond⟩ := List.mem_filter.mp hd
    obtain ⟨k, _, rfl⟩ := List.mem_map.mp hdm
    rw [Bool.and_eq_true, decide_eq_true_eq, decide_eq_true_eq] at hcond
    exact ⟨monthStart_isMonthStart k, hcond.1, hcond.2⟩
  · intro hv d hms hsd hde
    rw [date_range_MS, List.mem_filter]
    refine ⟨?_, ?_⟩
    · rw [List.mem_map]
      refine ⟨monthIdx d, ?_, monthStart_monthIdx hms⟩
      rw [List.mem_range]
      unfold validDate at hv
      unfold isMonthStart at hms
      unfold monthIdx
      omega
    · rw [Bool.and_eq_true, decide_eq_true_eq, decide_eq_true_eq]
      exact ⟨hsd, hde⟩
  · intro h
    rw [date_range_MS, List.filter_eq_nil_iff]
    intro a _
    rw [Bool.and_eq_true, decide_eq_true_eq, decide_eq_true_eq]
    omega

theorem C7_witness :
    List.Sorted (· < ·) (date_range_MS 20100115 20100315)
    ∧ (date_range_MS 20100115 20100315).Nodup
    ∧ (∀ d ∈ date_range_MS 20100115 20100315,
        isMonthStart d ∧ 20100115 ≤ d ∧ d ≤ 20100315)
    ∧ (validDate 20100315 → ∀ d, isMonthStart d → 20100115 ≤ d →
        d ≤ 20100315 → d ∈ date_range_MS 20100115 20100315)
    ∧ (20100315 < 20100115 → date_range_MS 20100115 20100315 = []) :=
  C7_axis_properties 20100115 20100315

/-! ### Claim C4: reindexing the merged table onto the canonical axis -/

/-- Cell lookup: the value a raw series carries at time `t`, or an explicit
missing value (`List.lookup` takes the first match, as pandas takes the first
of duplicate index labels). -/
def cellAt (obs : Obs) (t : Date) : Val :=
  match obs.lookup t with
  | some v => v
  | none => none

/-- One column of `df.reindex(master_index)`: the row index becomes exactly
the axis; a time present in the raw series keeps its value, an absent one
becomes an explicit missing value, and raw times outside the axis are
dropped. -/
def reindexCol (axis : List Date) (obs : Obs) : Obs :=
  axis.map fun t => (t, cellAt obs t)

/-- `df_global_data = df_global_data.reindex(master_index)`
(src/extract.py:186-187), column by column. -/
def reindexTable (axis : List Date) (tbl : List (Nat × Obs)) :
    List (Nat × Obs) :=
  tbl.map fun col => (col.1, reindexCol axis col.2)

/-- C4: for a non-empty table of successful series, every reindexed column's
row index equals the canonical axis exactly — same length, no time point
outside the axis survives, and every axis time point appears in every column,
with the raw value where the raw series has one and an explicit missing value
otherwise. -/
theorem C4_reindex_aligns (axis : List Date) (tbl : List (Nat × Obs))
    (_hne : tbl ≠ []) :
    ∀ col ∈ reindexTable axis tbl,
      col.2.map Prod.fst = axis
      ∧ col.2.length = axis.length
      ∧ (∀ t v, (t, v) ∈ col.2 → t ∈ axis)
      ∧ ∃ obs, (col.1, obs) ∈ tbl ∧ ∀ t ∈ axis, (t, cellAt obs t) ∈ col.2 := by
  intro col hc
  obtain ⟨p, hp, rfl⟩ := List.mem_map.mp hc
  refine ⟨?_, ?_, ?_, ?_⟩
  · show (reindexCol axis p.2).map Prod.fst = axis
    unfold reindexCol
    rw [List.map_map,
      show (Prod.fst ∘ fun t => (t, cellAt p.2 t)) = id from rfl, List.map_id]
  · show (reindexCol axis p.2).length = axis.length
    unfold reindexCol
    exact List.length_map _ _
  · intro t v hmem
    obtain ⟨t', ht', heq⟩ := List.mem_map.mp hmem
    have hfst := congrArg Prod.fst heq
    simp only at hfst
    subst hfst
    exact ht'
  · refine ⟨p.2, by simpa using hp, fun t ht => List.mem_map.mpr ⟨t, ht, rfl⟩⟩

def axisW : List Date := [20100101, 20100201]

def tblW : List (Nat × Obs) := [(5, [(20100101, some 3), (20200101, some 4)])]

theorem C4_witness :
    tblW ≠ []
    ∧ ∀ col ∈ reindexTable axisW tblW,
        col.2.map Prod.fst = axisW
        ∧ col.2.length = axisW.length
        ∧ (∀ t v, (t, v) ∈ col.2 → t ∈ axisW)
        ∧ ∃ obs, (col.1, obs) ∈ tblW ∧ ∀ t ∈ axisW, (t, cellAt obs t) ∈ col.2 :=
  ⟨by decide, C4_reindex_aligns axisW tblW (by decide)⟩

/-! ### Claim C5: the distributor's per-sheet column range -/

/-- `generate_column_range` (src/extract.py:22-36), on column indices:
`[get_column_letter(i) for i in range(2, max_idx + 1)]` — the range always
starts at column `'B'` (index 2).  The `except` branch (an unparseable column
string) is unreachable here because indices stand for already-parsed
letters. -/
def generate_column_range (max_idx : Nat) : List Nat :=
  List.range' 2 (max_idx + 1 - 2)

/-- A freshly initialized sheet column: explicit missing values on the whole
axis. -/
def emptyCol (axis : List Date) : Obs :=
  axis.map fun t => (t, none)

/-- Pandas column assignment `df[c] = v`: replaces the column when present,
appends a new one otherwise. -/
def setColumn (sheet : List (Nat × Obs)) (c : Nat) (v : Obs) :
    List (Nat × Obs) :=
  if sheet.any fun p => p.1 == c then
    sheet.map fun p => if p.1 == c then (c, v) else p
  else sheet ++ [(c, v)]

/-- One configuration row's data transfer (src/extract.py:211-217):
`if cod_orig in df_global_data.columns: df_sheet[col_dest] = ...`. -/
def applyRow (table : List (Nat × Obs)) (sheet : List (Nat × Obs))
    (row : Nat × Nat) : List (Nat × Obs) :=
  match table.lookup row.2 with
  | some v => setColumn sheet row.1 v
  | none => sheet

/-- The per-sheet build of `main` (src/extract.py:199-219) for one
destination sheet, over a configuration `cfg` of
`(destination column index, series code)` rows: take the maximal configured
column, lay the full `'B'..max` range out as empty columns on the axis, then
transfer every configured series found in the consolidated table. -/
def buildSheet (axis : List Date) (table : List (Nat × Obs))
    (cfg : List (Nat × Nat)) : List (Nat × Obs) :=
  let max_idx := (cfg.map Prod.fst).foldl max 0
  let target_cols := generate_column_range max_idx
  cfg.foldl (applyRow table) (target_cols.map fun c => (c, emptyCol axis))

theorem init_le_foldl_max (l : List Nat) (a : Nat) : a ≤ l.foldl max a := by
  induction l generalizing a with
  | nil => exact Nat.le_refl a
  | cons b t ih => exact le_trans (le_max_left a b) (ih (max a b))

theorem le_foldl_max (l : List Nat) (a : Nat) : ∀ x ∈ l, x ≤ l.foldl max a := by
  induction l generalizing a with
  | nil => intro x hx; cases hx
  | cons b t ih =>
    intro x hx
    rcases List.mem_cons.mp hx with rfl | hx
    · exact le_trans (le_max_right a x) (init_le_foldl_max t (max a x))
    · exact ih (max a b) x hx

theorem setColumn_fst_of_mem (sheet : List (Nat × Obs)) (c : Nat) (v : Obs)
    (h : c ∈ sheet.map Prod.fst) :
    (setColumn sheet c v).map Prod.fst = sheet.map Prod.fst := by
  unfold setColumn
  rw [if_pos]
  · rw [List.map_map]
    refine List.map_congr_left fun p _ => ?_
    simp only [Function.comp]
    split
    case isTrue hbc => exact (eq_of_beq hbc).symm
    case isFalse => rfl
  · rw [List.any_eq_true]
    obtain ⟨p, hp, rfl⟩ := List.mem_map.mp h
    exact ⟨p, hp, by simp⟩

theorem setColumn_mem_other (sheet : List (Nat × Obs)) (c : Nat) (v : Obs)
    (q : Nat × Obs) (hq : q ∈ sheet) (hne : q.1 ≠ c) :
    q ∈ setColumn sheet c v := by
  unfold setColumn
  split
  · refine List.mem_map.mpr ⟨q, hq, ?_⟩
    rw [if_neg fun hh => hne (eq_of_beq hh)]
  · exact List.mem_append_left _ hq

theorem foldl_applyRow_fst (table : List (Nat × Obs)) (cfg : List (Nat × Nat))
    (sheet : List (Nat × Obs))
    (h : ∀ p ∈ cfg, p.1 ∈ sheet.map Prod.fst) :
    (cfg.foldl (applyRow table) sheet).map Prod.fst = sheet.map Prod.fst := by
  induction cfg generalizing sheet with
  | nil => rfl
  | cons a t ih =>
    rw [List.foldl_cons]
    have hfst : (applyRow table sheet a).map Prod.fst = sheet.map Prod.fst := by
      unfold applyRow
      cases table.lookup a.2 with
      | some v => exact setColumn_fst_of_mem sheet a.1 v (h a (List.mem_cons_self a t))
      | none => rfl
    rw [ih (applyRow table sheet a) fun p hp => by
      rw [hfst]; exact h p (List.mem_cons_of_mem a hp), hfst]

theorem foldl_applyRow_mem_untouched (table : List (Nat × Obs))
    (cfg : List (Nat × Nat)) (sheet : List (Nat × Obs)) (q : Nat × Obs)
    (hq : q ∈ sheet)
    (h : ∀ p ∈ cfg, table.lookup p.2 = none ∨ p.1 ≠ q.1) :
    q ∈ cfg.foldl (applyRow table) sheet := by
  induction cfg generalizing sheet with
  | nil => exact hq
  | cons a t ih =>
    rw [List.foldl_cons]
    refine ih (applyRow table sheet a) ?_ fun p hp => h p (List.mem_cons_of_mem a hp)
    rcases h a (List.mem_cons_self a t) with hnone | hne
    · unfold applyRow
      rw [hnone]
      exact hq
    · unfold applyRow
      cases table.lookup a.2 with
      | none => exact hq
      | some v => exact setColumn_mem_other sheet a.1 v q hq (Ne.symm hne)

theorem mem_generate_column_range (m c : Nat) :
    c ∈ generate_column_range m ↔ 2 ≤ c ∧ c < 2 + (m + 1 - 2) :=
  List.mem_range'_1

/-- C5, amended: when every configured destination column of a sheet is at or
after column `'B'`, the built sheet's column set is exactly the contiguous
range from the fixed column `'B'` (index 2) to the highest configured
destination column, inclusive (so every configured column lies in the range
and interior unconfigured columns are present but entirely empty); only
configured columns are filled, and a configured identifier with no matching
column in the consolidated table leaves its destination column entirely
empty, without raising an error. -/
theorem C5_sheet_column_range_amended (axis : List Date)
    (table : List (Nat × Obs)) (cfg : List (Nat × Nat))
    (hB : ∀ p ∈ cfg, 2 ≤ p.1) :
    (buildSheet axis table cfg).map Prod.fst
      = generate_column_range ((cfg.map Prod.fst).foldl max 0)
    ∧ (∀ p ∈ cfg, p.1 ∈ generate_column_range ((cfg.map Prod.fst).foldl max 0))
    ∧ (∀ c ∈ generate_column_range ((cfg.map Prod.fst).foldl max 0),
        (∀ p ∈ cfg, p.1 ≠ c) → (c, emptyCol axis) ∈ buildSheet axis table cfg)
    ∧ (∀ p ∈ cfg, table.lookup p.2 = none →
        (∀ q ∈ cfg, q.1 = p.1 → table.lookup q.2 = none) →
        (p.1, emptyCol axis) ∈ buildSheet axis table cfg) := by
  have hmem : ∀ p ∈ cfg,
      p.1 ∈ generate_column_range ((cfg.map Prod.fst).foldl max 0) := by
    intro p hp
    rw [mem_generate_column_range]
    have h1 := hB p hp
    have h2 := le_foldl_max (cfg.map Prod.fst) 0 p.1 (List.mem_map_of_mem _ hp)
    omega
  have hinit : ((generate_column_range ((cfg.map Prod.fst).foldl max 0)).map
        fun c => (c, emptyCol axis)).map Prod.fst
      = generate_column_range ((cfg.map Prod.fst).foldl max 0) := by
    rw [List.map_map, show (Prod.fst ∘ fun c => ((c, emptyCol axis) : Nat × Obs)) = id
      from rfl, List.map_id]
  refine ⟨?_, hmem, ?_, ?_⟩
  · unfold buildSheet
    rw [foldl_applyRow_fst _ _ _ fun p hp => by rw [hinit]; exact hmem p hp, hinit]
  · intro c _ hc
    unfold buildSheet
    exact foldl_applyRow_mem_untouched _ _ _ _
      (List.mem_map_of_mem _ (by assumption))
      fun p hp => Or.inr (hc p hp)
  · intro p hp hnone hall
    unfold buildSheet
    refine foldl_applyRow_mem_untouched _ _ _ _
      (List.mem_map_of_mem _ (hmem p hp)) fun q hq => ?_
    by_cases hqp : q.1 = p.1
    · exact Or.inl (hall q hq hqp)
    · exact Or.inr hqp

/-- C5 counterexample: with a single configured destination column `'D'`
(index 4), the claim's contiguous range from the lowest to the highest
configured column would be `['D']`, but the built sheet spans
`['B', 'C', 'D']` — the code's lower bound is the fixed column `'B'`, not the
lowest configured column. -/
theorem C5_counterexample :
    (buildSheet [] [] [(4, 7)]).map Prod.fst = [2, 3, 4]
    ∧ (buildSheet [] [] [(4, 7)]).map Prod.fst ≠ [4] := by
  constructor <;> decide

theorem C5_witness :
    (buildSheet axisW tblW [(2, 5), (4, 9)]).map Prod.fst
      = generate_column_range
          ((([(2, 5), (4, 9)] : List (Nat × Nat)).map Prod.fst).foldl max 0) :=
  (C5_sheet_column_range_amended axisW tblW [(2, 5), (4, 9)] (by decide)).1

/-! ### Claim C8: the process exit code of `main` (src/extract.py:124-249) -/

/-- Why reading the configuration file failed (src/extract.py:166-173):
`FileNotFoundError` or any other read exception — both are critical. -/
inductive ConfigErr where
  | fileNotFound
  | readFailure
  deriving DecidableEq

/-- One raw row of the configuration sheet as read by
`pd.read_excel(..., usecols=['Codigo', 'Coluna', 'Aba'])`:
`codigo` is `none` for a missing cell, `some none` for a present cell that
`pd.to_numeric(..., errors='coerce')` cannot parse, and `some (some n)` for a
numeric cell; `coluna` carries the result of `column_index_from_string` on
the trimmed upper-cased label (`none` when that call would raise); `aba` is
the trimmed sheet name, `none` for a missing cell. -/
structure RawRow where
  codigo : Option (Option Int)
  coluna : Option Nat
  aba : Option String
  deriving DecidableEq

/-- A cleaned configuration row: positive integer code, destination column
parse, sheet name. -/
structure CleanRow where
  codigo : Nat
  coluna : Option Nat
  aba : String
  deriving DecidableEq

/-- The cleaning pipeline of `main` (src/extract.py:158-164): drop rows with
missing `Codigo` or `Aba`, coerce `Codigo` to numeric with `NaN -> 0`
(`fillna(0)`), and keep only strictly positive codes. -/
def cleanRows (rows : List RawRow) : List CleanRow :=
  rows.filterMap fun r =>
    match r.codigo, r.aba with
    | some c, some a =>
      let clean : Int := c.getD 0
      if 0 < clean then some ⟨clean.toNat, r.coluna, a⟩ else none
    | _, _ => none

/-- Pandas `Series.unique()`: distinct values in first-occurrence order. -/
def pdUnique {α : Type} [DecidableEq α] (l : List α) : List α :=
  l.foldl (fun acc a => if a ∈ acc then acc else acc ++ [a]) []

/-- `df_input['Codigo_Clean'].unique().tolist()` (src/extract.py:176). -/
def unique_codes (rows : List RawRow) : List Nat :=
  pdUnique ((cleanRows rows).map (·.codigo))

/-- `df_input['Aba'].unique()` (src/extract.py:191). -/
def uniqueAbas (cleaned : List CleanRow) : List String :=
  pdUnique (cleaned.map (·.aba))

/-- `df_config = df_input[df_input['Aba'] == sheet]` (src/extract.py:196-197). -/
def sheetConfig (cleaned : List CleanRow) (sheet : String) : List CleanRow :=
  cleaned.filter fun r => r.aba == sheet

/-- The distribution loop of `main` (src/extract.py:195-219): one sheet per
distinct `Aba`; a sheet whose column labels do not all parse raises inside
the `try` and is skipped (`continue`); the rest are built by `buildSheet`. -/
def buildSheets (axis : List Date) (table : List (Nat × Obs))
    (cleaned : List CleanRow) : List (String × List (Nat × Obs)) :=
  (uniqueAbas cleaned).filterMap fun sheet =>
    let df_config := sheetConfig cleaned sheet
    if df_config.all fun r => r.coluna.isSome then
      some (sheet, buildSheet axis table
        (df_config.map fun r => (r.coluna.getD 0, r.codigo)))
    else none

/-- The environment `main` runs against: the current date, the configuration
read, the remote oracle, and whether the final Excel write succeeds. -/
structure Env where
  today : Date
  config : Except ConfigErr (List RawRow)
  remote : Remote
  writeOk : Bool

/-- `download_series_batch` result, reindexed onto the master index unless
empty (`if not df_global_data.empty`, src/extract.py:186-187). -/
def globalTable (env : Env) (rows : List RawRow) : List (Nat × Obs) :=
  let raw := download_series_batch env.remote (unique_codes rows) START_DATE
  if raw = [] then []
  else reindexTable (date_range_MS START_DATE env.today) raw

/-- The `output_dfs` dictionary of `main` as a list. -/
def outputSheets (env : Env) (rows : List RawRow) :
    List (String × List (Nat × Obs)) :=
  buildSheets (date_range_MS START_DATE env.today) (globalTable env rows)
    (cleanRows rows)

/-- The exit code of `main`: `exit_code` starts at 0 and is set to 1 when the
configuration cannot be read, when no valid series code survives cleaning,
when no sheet is generated, or when the final write fails; `sys.exit` runs in
the `finally` block.  Backup failure (src/extract.py:134-144) only logs a
warning and does not touch the exit code. -/
def mainExit (env : Env) : Nat :=
  match env.config with
  | .error _ => 1
  | .ok rows =>
    if (unique_codes rows).isEmpty then 1
    else if (outputSheets env rows).isEmpty then 1
    else if env.writeOk then 0 else 1

/-- C8: the process exit code is always 0 or 1, and it is 0 exactly when the
configuration was read, at least one valid (positive-integer) series
identifier survived cleaning, at least one output sheet was produced, and
the output file write succeeded — every critical failure (missing or
unreadable configuration, zero valid identifiers, no output sheets, write
failure) exits 1. -/
theorem C8_exit_code (env : Env) :
    (mainExit env = 0 ∨ mainExit env = 1)
    ∧ (mainExit env = 0 ↔
        ∃ rows, env.config = .ok rows
          ∧ unique_codes rows ≠ []
          ∧ outputSheets env rows ≠ []
          ∧ env.writeOk = true) := by
  cases hc : env.config with
  | error e =>
    constructor
    · right
      simp [mainExit, hc]
    · simp [mainExit, hc]
  | ok rows =>
    constructor
    · by_cases h1 : unique_codes rows = []
      · right; simp [mainExit, hc, List.isEmpty_iff, h1]
      · by_cases h2 : outputSheets env rows = []
        · right; simp [mainExit, hc, List.isEmpty_iff, h1, h2]
        · cases hw : env.writeOk
          · right; simp [mainExit, hc, List.isEmpty_iff, h1, h2, hw]
          · left; simp [mainExit, hc, List.isEmpty_iff, h1, h2, hw]
    · by_cases h1 : unique_codes rows = []
      · simp [mainExit, hc, List.isEmpty_iff, h1]
      · by_cases h2 : outputSheets env rows = []
        · simp [mainExit, hc, List.isEmpty_iff, h1, h2]
        · cases hw : env.writeOk
          · simp [mainExit, hc, List.isEmpty_iff, h1, h2, hw]
          · simp [mainExit, hc, List.isEmpty_iff, h1, h2, hw]

/-- A configuration row mapping series 7 to column `'B'` of sheet `S1`. -/
def rowW : RawRow := ⟨some (some 7), some 2, some "S1"⟩

/-- An oracle whose combined fetch succeeds with one observation per code. -/
def rMainOk : Remote where
  fetchBatch := fun chunk _ => .ok (chunk.map fun c => (c, [(20100101, some 1)]))
  fetchOne := fun _ _ => .error ()
  fetchFull := fun _ => .error ()

def envW : Env := ⟨101, .ok [rowW], rMainOk, true⟩

theorem C8_witness : mainExit envW = 0 :=
  (C8_exit_code envW).2.mpr ⟨[rowW], rfl, by decide, by
    have h : outputSheets envW [rowW] = [("S1", [(2, [])])] := rfl
    rw [h]
    exact List.cons_ne_nil _ _, rfl⟩
